import Mathlib

/-!
Shallow embedding of the quantitative backtesting engine
(`quantitative_backtester/backtester/{models,portfolio,execution,metrics}.py`).

Modelling conventions:
* Python `Decimal` is modelled as `ℚ` (exact decimal arithmetic; the spec and
  the claims speak of exact rational values such as −1/3).
* Python `datetime` is modelled as an opaque tick `ℕ`.
* Python `dict[str, X]` is modelled as an insertion-ordered association list
  `List (String × X)`; `dict.get` is first-match lookup, assignment replaces
  the binding for an existing key in place and otherwise appends, `del`
  removes the binding.
* A Python function that can `raise ValueError` is modelled with `Except
  String` for pure functions; a method that mutates `self` and can raise
  mid-way is modelled as returning the final (possibly partially mutated)
  state together with an `Option String` error, so that the state left
  behind by a raising call is observable.
* Dataclass `__post_init__` validation is modelled by `mk…` smart
  constructors returning `Except String _`, or by `valid` predicates for
  values that arrive already constructed.
-/

namespace Backtester

/-- Python's blank-symbol test `not s.strip()`: true iff the string strips
to empty, i.e. every character is whitespace. -/
def strBlank (s : String) : Bool :=
  s.data.all (fun c => c.isWhitespace)

/-- `Side` enumeration from `models.py`: direction of an executed transaction. -/
inductive Side where
  | BUY
  | SELL
deriving DecidableEq, Repr

/-- `Trade` dataclass from `models.py`: result of an executed order. -/
structure Trade where
  timestamp : ℕ
  side : Side
  quantity : ℚ
  price : ℚ
  fee : ℚ
  slippage : ℚ
  symbol : String
deriving DecidableEq, Repr

/-- The checks of `Trade.__post_init__` (quantity > 0, price > 0, fee ≥ 0,
slippage ≥ 0, non-blank symbol), satisfied by every constructed `Trade`. -/
def Trade.valid (t : Trade) : Prop :=
  0 < t.quantity ∧ 0 < t.price ∧ 0 ≤ t.fee ∧ 0 ≤ t.slippage ∧ strBlank t.symbol = false

instance (t : Trade) : Decidable t.valid := by
  unfold Trade.valid; infer_instance

/-- `Trade.__post_init__` as a fallible constructor (used by
`ExecutionModel.execute`, which builds a fresh `Trade`). -/
def mkTrade (timestamp : ℕ) (side : Side) (quantity price fee slippage : ℚ)
    (symbol : String) : Except String Trade :=
  if quantity ≤ 0 then .error "Trade quantity must be > 0."
  else if price ≤ 0 then .error "Trade price must be > 0."
  else if fee < 0 then .error "Trade fee cannot be < 0."
  else if slippage < 0 then .error "Trade slippage cannot be < 0."
  else if strBlank symbol then .error "Trade must contain a symbol."
  else .ok ⟨timestamp, side, quantity, price, fee, slippage, symbol⟩

/-- `Trade.notional_value` property: quantity × price. -/
def Trade.notional_value (t : Trade) : ℚ := t.quantity * t.price

/-- `Trade.transaction_cost` property: fee + slippage. -/
def Trade.transaction_cost (t : Trade) : ℚ := t.fee + t.slippage

/-- `Position` dataclass from `models.py`: aggregated holding of one asset. -/
structure Position where
  symbol : String
  quantity : ℚ
  average_price : ℚ
deriving DecidableEq, Repr

/-- The checks of `Position.__post_init__`: quantity > 0, average price > 0,
non-blank symbol. -/
def Position.valid (pos : Position) : Prop :=
  0 < pos.quantity ∧ 0 < pos.average_price ∧ strBlank pos.symbol = false

instance (pos : Position) : Decidable pos.valid := by
  unfold Position.valid; infer_instance

/-- `Position.__post_init__` as a fallible constructor: `apply_trade` builds
fresh `Position` values, and their construction can raise. -/
def mkPosition (symbol : String) (quantity average_price : ℚ) :
    Except String Position :=
  if quantity ≤ 0 then .error "Position quantity must be > 0."
  else if average_price ≤ 0 then .error "Average price must be > 0."
  else if strBlank symbol then .error "Position must contain a symbol."
  else .ok ⟨symbol, quantity, average_price⟩

/-- `PortfolioSnapshot` dataclass from `models.py`. -/
structure PortfolioSnapshot where
  timestamp : ℕ
  cash : ℚ
  positions_value : ℚ
deriving DecidableEq, Repr

/-- `PortfolioSnapshot.equity` property: cash + positions value. -/
def PortfolioSnapshot.equity (s : PortfolioSnapshot) : ℚ :=
  s.cash + s.positions_value

/-- Python-dict first-match lookup (`dict.get` / `k in d`). -/
def dictGet {α : Type} (d : List (String × α)) (k : String) : Option α :=
  match d with
  | [] => none
  | pr :: rest => if pr.1 = k then some pr.2 else dictGet rest k

/-- Python-dict assignment `d[k] = v`: replace the binding for `k` in place
when one exists, otherwise append. -/
def dictSet {α : Type} (d : List (String × α)) (k : String) (v : α) :
    List (String × α) :=
  if d.any (fun pr => pr.1 = k) then
    d.map (fun pr => if pr.1 = k then (k, v) else pr)
  else d ++ [(k, v)]

/-- Python-dict deletion `del d[k]`. -/
def dictDel {α : Type} (d : List (String × α)) (k : String) :
    List (String × α) :=
  d.filter (fun pr => pr.1 ≠ k)

/-- `Portfolio` dataclass from `portfolio.py`. -/
structure Portfolio where
  cash : ℚ := 0
  equity_curve : List PortfolioSnapshot := []
  positions : List (String × Position) := []
  trades : List Trade := []
deriving DecidableEq, Repr

/-- `Portfolio.apply_trade` from `portfolio.py`, translated statement by
statement.  The Python method mutates `self` and raises on failure; here it
returns the final state (including any mutation performed before the raise)
together with `some errorMessage` when it raises and `none` on success.
Note the source's control flow for a SELL: `self.cash += amount` runs
*before* the oversell check, so a raising oversell leaves cash mutated. -/
def Portfolio.apply_trade (p : Portfolio) (t : Trade) :
    Portfolio × Option String :=
  match t.side with
  | Side.BUY =>
    let amount := t.notional_value + t.fee + t.slippage
    if p.cash < amount then
      (p, some "Insufficient cash to execute BUY trade.")
    else
      let cash2 := p.cash - amount
      match dictGet p.positions t.symbol with
      | none =>
        match mkPosition t.symbol t.quantity t.price with
        | .error e => ({ p with cash := cash2 }, some e)
        | .ok pos =>
          ({ p with cash := cash2,
                    positions := dictSet p.positions t.symbol pos,
                    trades := p.trades ++ [t] }, none)
      | some position =>
        let new_quantity := position.quantity + t.quantity
        let new_average_price :=
          (position.average_price * position.quantity +
            t.price * t.quantity) / new_quantity
        match mkPosition t.symbol new_quantity new_average_price with
        | .error e => ({ p with cash := cash2 }, some e)
        | .ok pos =>
          ({ p with cash := cash2,
                    positions := dictSet p.positions t.symbol pos,
                    trades := p.trades ++ [t] }, none)
  | Side.SELL =>
    let amount := t.notional_value - t.fee - t.slippage
    let cash2 := p.cash + amount
    match dictGet p.positions t.symbol with
    | none => ({ p with cash := cash2 }, some "Cannot sell more than existing position.")
    | some position =>
      if position.quantity < t.quantity then
        ({ p with cash := cash2 }, some "Cannot sell more than existing position.")
      else
        let new_quantity := position.quantity - t.quantity
        if new_quantity = 0 then
          ({ p with cash := cash2,
                    positions := dictDel p.positions t.symbol,
                    trades := p.trades ++ [t] }, none)
        else
          match mkPosition t.symbol new_quantity position.average_price with
          | .error e => ({ p with cash := cash2 }, some e)
          | .ok pos =>
            ({ p with cash := cash2,
                      positions := dictSet p.positions t.symbol pos,
                      trades := p.trades ++ [t] }, none)

/-- The held-positions valuation loop of `Portfolio.mark_to_market`: sums
`quantity × close_price` over held symbols, failing on the first held symbol
missing from `close_prices`. -/
def positionsValue (positions : List (String × Position))
    (close_prices : List (String × ℚ)) : Except String ℚ :=
  positions.foldl
    (fun acc pr =>
      match acc with
      | .error e => .error e
      | .ok v =>
        match dictGet close_prices pr.1 with
        | none => .error ("Missing close price for symbol: " ++ pr.1 ++ ".")
        | some price => .ok (v + pr.2.quantity * price))
    (.ok 0)

/-- `Portfolio.mark_to_market` from `portfolio.py`: values the holdings,
appends a snapshot to the equity curve and returns it; raises (appending
nothing, mutating nothing) when a held symbol has no close price. -/
def Portfolio.mark_to_market (p : Portfolio) (timestamp : ℕ)
    (close_prices : List (String × ℚ)) :
    Portfolio × Except String PortfolioSnapshot :=
  match positionsValue p.positions close_prices with
  | .error e => (p, .error e)
  | .ok v =>
    let snapshot : PortfolioSnapshot :=
      { timestamp := timestamp, cash := p.cash, positions_value := v }
    ({ p with equity_curve := p.equity_curve ++ [snapshot] }, .ok snapshot)

/-- `Bar` dataclass from `models.py`: one OHLCV candlestick. -/
structure Bar where
  timestamp : ℕ
  «open» : ℚ
  high : ℚ
  low : ℚ
  close : ℚ
  volume : ℤ
deriving DecidableEq, Repr

/-- The checks of `Bar.__post_init__`: positive prices, high ≥ max(open,
close), low ≤ min(open, close), high ≥ low, volume ≥ 0. -/
def Bar.valid (b : Bar) : Prop :=
  0 < b.«open» ∧ 0 < b.high ∧ 0 < b.low ∧ 0 < b.close ∧
    max b.«open» b.close ≤ b.high ∧ b.low ≤ min b.«open» b.close ∧
    b.low ≤ b.high ∧ 0 ≤ b.volume

instance (b : Bar) : Decidable b.valid := by
  unfold Bar.valid; infer_instance

/-- `Order` dataclass from `models.py`: a request to transact. -/
structure Order where
  timestamp : ℕ
  side : Side
  quantity : ℚ
  symbol : String
deriving DecidableEq, Repr

/-- The checks of `Order.__post_init__`: quantity > 0, non-blank symbol. -/
def Order.valid (o : Order) : Prop :=
  0 < o.quantity ∧ strBlank o.symbol = false

instance (o : Order) : Decidable o.valid := by
  unfold Order.valid; infer_instance

/-- The `fill_trade_on` literal of `ExecutionModel`: which bar price fills. -/
inductive FillOn where
  | «open»
  | close
deriving DecidableEq, Repr

/-- `ExecutionModel` dataclass from `execution.py` (its `__post_init__`
requires fee ≥ 0 and slippage ≥ 0, captured by `ExecutionModel.valid`). -/
structure ExecutionModel where
  fee_per_trade : ℚ := 0
  slippage_bps : ℚ := 0
  fill_trade_on : FillOn := FillOn.«open»
deriving DecidableEq, Repr

/-- The checks of `ExecutionModel.__post_init__`. -/
def ExecutionModel.valid (m : ExecutionModel) : Prop :=
  0 ≤ m.slippage_bps ∧ 0 ≤ m.fee_per_trade

instance (m : ExecutionModel) : Decidable m.valid := by
  unfold ExecutionModel.valid; infer_instance

/-- The base-price selection of `ExecutionModel.execute`:
`bar.open if self.fill_trade_on == "open" else bar.close`. -/
def ExecutionModel.base_price (m : ExecutionModel) (bar : Bar) : ℚ :=
  match m.fill_trade_on with
  | FillOn.«open» => bar.«open»
  | FillOn.close => bar.close

/-- `ExecutionModel.execute` from `execution.py`: converts an `Order` into a
filled `Trade`, applying slippage and fee; the final `Trade(...)` call runs
`Trade.__post_init__`, so its checks can also raise (modelled by `mkTrade`). -/
def ExecutionModel.execute (m : ExecutionModel) (o : Order) (bar : Bar) :
    Except String Trade :=
  if o.quantity ≤ 0 then .error "Order quantity must be > 0."
  else if o.symbol = "" then .error "Order symbol required."
  else
    let base_price := m.base_price bar
    let slippage_rate := m.slippage_bps / 10000
    let fill_price :=
      match o.side with
      | Side.BUY => base_price * (1 + slippage_rate)
      | Side.SELL => base_price * (1 - slippage_rate)
    let slippage_cost := |fill_price - base_price| * o.quantity
    let fee := m.fee_per_trade
    mkTrade bar.timestamp o.side o.quantity fill_price fee slippage_cost o.symbol

/-- `Metrics` dataclass from `metrics.py`. -/
structure Metrics where
  equity_curve : List PortfolioSnapshot := []
deriving DecidableEq, Repr

/-- `Metrics.total_return` from `metrics.py`: (final − initial)/initial,
raising on an empty curve or zero initial equity. -/
def Metrics.total_return (m : Metrics) : Except String ℚ :=
  match m.equity_curve with
  | [] => .error "Equity curve does not yet contain any values."
  | first :: rest =>
    let final_equity := (rest.getLastD first).equity
    let initial_equity := first.equity
    if initial_equity = 0 then .error "Initial equity must be > 0."
    else .ok ((final_equity - initial_equity) / initial_equity)

/-- The loop of `Metrics.returns_series`, carrying the previous snapshot:
for each current snapshot, raise when the previous equity is zero, otherwise
emit `(timestamp, current/previous − 1)`. -/
def returnsGo (prev : PortfolioSnapshot) :
    List PortfolioSnapshot → Except String (List (ℕ × ℚ))
  | [] => .ok []
  | cur :: rest =>
    if prev.equity = 0 then .error "Previous equity must not be = 0."
    else
      match returnsGo cur rest with
      | .error e => .error e
      | .ok tail => .ok ((cur.timestamp, cur.equity / prev.equity - 1) :: tail)

/-- `Metrics.returns_series` from `metrics.py`: empty result for fewer than
two snapshots, otherwise the period-to-period returns in order. -/
def Metrics.returns_series (m : Metrics) : Except String (List (ℕ × ℚ)) :=
  match m.equity_curve with
  | [] => .ok []
  | [_] => .ok []
  | first :: rest => returnsGo first rest

/-- `statistics.mean` over the (exact) return values. -/
def listMean (xs : List ℚ) : ℚ := xs.sum / xs.length

/-- The square of `statistics.pstdev` (population variance) over the return
values; `pstdev xs = √(pvariance xs)`, and `pstdev xs = 0 ↔ pvariance xs = 0`
since the variance is non-negative. -/
def pvariance (xs : List ℚ) : ℚ :=
  (xs.map (fun x => (x - listMean xs) ^ 2)).sum / xs.length

/-- The value computed by `Metrics.sharpe_ratio`: the `zero` constructor is
the literal `0.0` of the two guard branches, `val μ σsq p` records the data
`(mean, pstdev², periods_per_year)` of the irrational result
`(μ / √σsq) · √p` of the final branch. -/
inductive SharpeValue where
  | zero
  | val (mean_return sigma_sq : ℚ) (periods_per_year : ℕ)
deriving DecidableEq, Repr

/-- `Metrics.sharpe_ratio` from `metrics.py`: propagates a `returns_series`
failure, returns `0.0` when there are no returns or the population standard
deviation is zero (`pstdev = 0 ↔ pvariance = 0`), and otherwise the
annualised ratio (kept symbolic, square roots being irrational). -/
def Metrics.sharpe_ratio (m : Metrics) (periods_per_year : ℕ := 252) :
    Except String SharpeValue :=
  match m.returns_series with
  | .error e => .error e
  | .ok rs =>
    let values := rs.map (fun r => r.2)
    if values.length = 0 then .ok SharpeValue.zero
    else
      let mean_return := listMean values
      let sigma_sq := pvariance values
      if sigma_sq = 0 then .ok SharpeValue.zero
      else .ok (SharpeValue.val mean_return sigma_sq periods_per_year)

/-- The loop of `Metrics.max_drawdown`: carries the running peak and the
worst (most negative) drawdown seen; snapshots at which the running peak is
zero are skipped. -/
def drawdownGo (running_max worst_drawdown : ℚ) : List ℚ → ℚ
  | [] => worst_drawdown
  | equity :: rest =>
    let rm2 := if running_max < equity then equity else running_max
    if rm2 = 0 then drawdownGo rm2 worst_drawdown rest
    else
      let drawdown := (equity - rm2) / rm2
      drawdownGo rm2
        (if drawdown < worst_drawdown then drawdown else worst_drawdown) rest

/-- `Metrics.max_drawdown` from `metrics.py`: 0 on an empty curve, otherwise
the fold above over all snapshots, the running peak initialised to the first
equity. -/
def Metrics.max_drawdown (m : Metrics) : ℚ :=
  match m.equity_curve.map PortfolioSnapshot.equity with
  | [] => 0
  | e0 :: rest => drawdownGo e0 0 (e0 :: rest)

/-! ### Association-list (Python dict) lemmas -/

theorem dictGet_dictSet_self {α : Type} (d : List (String × α)) (k : String)
    (v : α) : dictGet (dictSet d k v) k = some v := by
  unfold dictSet
  by_cases h : d.any (fun pr => pr.1 = k)
  · rw [if_pos h]
    induction d with
    | nil => simp at h
    | cons a tl ih =>
      by_cases ha : a.1 = k
      · simp [dictGet, ha]
      · simp only [List.any_cons, Bool.or_eq_true, decide_eq_true_eq] at h
        rcases h with h | h
        · exact absurd h ha
        · simp [dictGet, ha, ih h]
  · rw [if_neg h]
    induction d with
    | nil => simp [dictGet]
    | cons a tl ih =>
      simp only [List.any_cons, Bool.or_eq_true, decide_eq_true_eq,
        not_or] at h
      simp [dictGet, h.1, ih h.2]

theorem dictGet_dictSet_ne {α : Type} (d : List (String × α)) (k k' : String)
    (v : α) (h : k' ≠ k) : dictGet (dictSet d k v) k' = dictGet d k' := by
  unfold dictSet
  by_cases hany : d.any (fun pr => pr.1 = k)
  · rw [if_pos hany]
    clear hany
    induction d with
    | nil => simp
    | cons a tl ih =>
      by_cases ha : a.1 = k
      · have hk : ¬(k = k') := fun hk => h hk.symm
        have ha' : ¬(a.1 = k') := by rw [ha]; exact hk
        simp [dictGet, ha, hk, ha', ih]
      · simp [dictGet, ha, ih]
  · rw [if_neg hany]
    clear hany
    induction d with
    | nil => simp [dictGet, show ¬(k = k') from fun hk => h hk.symm]
    | cons a tl ih =>
      simp [dictGet, ih]

theorem dictGet_dictDel_self {α : Type} (d : List (String × α)) (k : String) :
    dictGet (dictDel d k) k = none := by
  induction d with
  | nil => rfl
  | cons a tl ih =>
    unfold dictDel at *
    by_cases ha : a.1 = k
    · simpa [List.filter_cons, ha] using ih
    · simpa [List.filter_cons, ha, dictGet] using ih

theorem mem_dictSet {α : Type} {d : List (String × α)} {k : String} {v : α}
    {pr : String × α} (h : pr ∈ dictSet d k v) : pr = (k, v) ∨ pr ∈ d := by
  unfold dictSet at h
  by_cases hany : d.any (fun q => q.1 = k)
  · rw [if_pos hany] at h
    obtain ⟨q, hq, hqe⟩ := List.mem_map.1 h
    by_cases hk : q.1 = k
    · left; rw [if_pos hk] at hqe; exact hqe.symm
    · right; rw [if_neg hk] at hqe; exact hqe ▸ hq
  · rw [if_neg hany] at h
    rcases List.mem_append.1 h with h' | h'
    · exact Or.inr h'
    · exact Or.inl (List.mem_singleton.1 h')

theorem mem_dictDel {α : Type} {d : List (String × α)} {k : String}
    {pr : String × α} (h : pr ∈ dictDel d k) : pr ∈ d :=
  List.mem_of_mem_filter h

theorem mem_of_dictGet {α : Type} {d : List (String × α)} {k : String} {v : α}
    (h : dictGet d k = some v) : (k, v) ∈ d := by
  induction d with
  | nil => simp [dictGet] at h
  | cons a tl ih =>
    unfold dictGet at h
    by_cases ha : a.1 = k
    · rw [if_pos ha] at h
      obtain ⟨a1, a2⟩ := a
      obtain rfl : a2 = v := by simpa using h
      simp only at ha
      subst ha
      exact List.mem_cons_self _ _
    · exact List.mem_cons_of_mem _ (ih (by rwa [if_neg ha] at h))

/-! ### Success-path shapes of `apply_trade` -/

theorem mkPosition_ok (sym : String) (q ap : ℚ) (hq : 0 < q) (hap : 0 < ap)
    (hsym : strBlank sym = false) : mkPosition sym q ap = .ok ⟨sym, q, ap⟩ := by
  unfold mkPosition
  rw [if_neg (not_le.2 hq), if_neg (not_le.2 hap),
    if_neg (by simp [hsym])]

/-- A valid BUY into a symbol with no existing holding, with sufficient cash:
debit cash, create the position, log the trade, no error. -/
theorem apply_trade_buy_new (p : Portfolio) (ts : ℕ) (q pr f s : ℚ)
    (sym : String) (hq : 0 < q) (hpr : 0 < pr) (hsym : strBlank sym = false)
    (hnone : dictGet p.positions sym = none)
    (hcash : q * pr + f + s ≤ p.cash) :
    p.apply_trade ⟨ts, Side.BUY, q, pr, f, s, sym⟩ =
      ({ p with cash := p.cash - (q * pr + f + s),
                positions := dictSet p.positions sym ⟨sym, q, pr⟩,
                trades := p.trades ++ [⟨ts, Side.BUY, q, pr, f, s, sym⟩] },
        none) := by
  unfold Portfolio.apply_trade
  simp only [Trade.notional_value, hnone,
    mkPosition_ok sym q pr hq hpr hsym, if_neg (not_lt.2 hcash)]

/-- A valid BUY into a symbol with an existing holding, with sufficient cash:
debit cash, merge into the quantity-weighted position, log the trade. -/
theorem apply_trade_buy_merge (p : Portfolio) (ts : ℕ) (q pr f s : ℚ)
    (sym : String) (position : Position) (hq : 0 < q) (hpr : 0 < pr)
    (hsym : strBlank sym = false)
    (hsome : dictGet p.positions sym = some position)
    (hposq : 0 < position.quantity) (hposap : 0 < position.average_price)
    (hcash : q * pr + f + s ≤ p.cash) :
    p.apply_trade ⟨ts, Side.BUY, q, pr, f, s, sym⟩ =
      ({ p with cash := p.cash - (q * pr + f + s),
                positions := dictSet p.positions sym
                  ⟨sym, position.quantity + q,
                    (position.average_price * position.quantity + pr * q) /
                      (position.quantity + q)⟩,
                trades := p.trades ++ [⟨ts, Side.BUY, q, pr, f, s, sym⟩] },
        none) := by
  have hq2 : 0 < position.quantity + q := by linarith
  have hap2 : 0 <
      (position.average_price * position.quantity + pr * q) /
        (position.quantity + q) := by
    apply div_pos _ hq2
    have h1 : 0 < position.average_price * position.quantity :=
      mul_pos hposap hposq
    have h2 : 0 < pr * q := mul_pos hpr hq
    linarith
  unfold Portfolio.apply_trade
  simp only [Trade.notional_value, hsome, mkPosition_ok _ _ _ hq2 hap2 hsym,
    if_neg (not_lt.2 hcash)]

/-- A SELL of exactly the held quantity: credit cash, delete the holding,
log the trade. -/
theorem apply_trade_sell_close (p : Portfolio) (ts : ℕ) (q pr f s : ℚ)
    (sym : String) (position : Position)
    (hsome : dictGet p.positions sym = some position)
    (hq : position.quantity = q) :
    p.apply_trade ⟨ts, Side.SELL, q, pr, f, s, sym⟩ =
      ({ p with cash := p.cash + (q * pr - f - s),
                positions := dictDel p.positions sym,
                trades := p.trades ++ [⟨ts, Side.SELL, q, pr, f, s, sym⟩] },
        none) := by
  unfold Portfolio.apply_trade
  simp [Trade.notional_value, hsome, hq]

/-- A BUY whose required cash exceeds available cash raises before touching
any state. -/
theorem apply_trade_buy_insufficient (p : Portfolio) (ts : ℕ) (q pr f s : ℚ)
    (sym : String) (hcash : p.cash < q * pr + f + s) :
    p.apply_trade ⟨ts, Side.BUY, q, pr, f, s, sym⟩ =
      (p, some "Insufficient cash to execute BUY trade.") := by
  unfold Portfolio.apply_trade
  simp [Trade.notional_value, hcash]

/-- A SELL with no holding in the symbol raises, but only after crediting
the sale proceeds to cash. -/
theorem apply_trade_sell_no_position (p : Portfolio) (ts : ℕ) (q pr f s : ℚ)
    (sym : String) (hnone : dictGet p.positions sym = none) :
    p.apply_trade ⟨ts, Side.SELL, q, pr, f, s, sym⟩ =
      ({ p with cash := p.cash + (q * pr - f - s) },
        some "Cannot sell more than existing position.") := by
  unfold Portfolio.apply_trade
  simp [Trade.notional_value, hnone]

/-- A SELL exceeding the held quantity raises, but only after crediting the
sale proceeds to cash. -/
theorem apply_trade_sell_oversell (p : Portfolio) (ts : ℕ) (q pr f s : ℚ)
    (sym : String) (position : Position)
    (hsome : dictGet p.positions sym = some position)
    (hlt : position.quantity < q) :
    p.apply_trade ⟨ts, Side.SELL, q, pr, f, s, sym⟩ =
      ({ p with cash := p.cash + (q * pr - f - s) },
        some "Cannot sell more than existing position.") := by
  unfold Portfolio.apply_trade
  simp [Trade.notional_value, hsome, hlt]

/-- A SELL of strictly less than the held quantity: credit cash, shrink the
holding at the same average price, log the trade. -/
theorem apply_trade_sell_shrink (p : Portfolio) (ts : ℕ) (q pr f s : ℚ)
    (sym : String) (position : Position)
    (hsome : dictGet p.positions sym = some position)
    (hgt : q < position.quantity) (hap : 0 < position.average_price)
    (hsym : strBlank sym = false) :
    p.apply_trade ⟨ts, Side.SELL, q, pr, f, s, sym⟩ =
      ({ p with cash := p.cash + (q * pr - f - s),
                positions := dictSet p.positions sym
                  ⟨sym, position.quantity - q, position.average_price⟩,
                trades := p.trades ++ [⟨ts, Side.SELL, q, pr, f, s, sym⟩] },
        none) := by
  have hq2 : 0 < position.quantity - q := by linarith
  unfold Portfolio.apply_trade
  simp only [Trade.notional_value, hsome, if_neg (not_lt.2 (le_of_lt hgt)),
    if_neg (ne_of_gt hq2), mkPosition_ok _ _ _ hq2 hap hsym]

/-! ### Claim theorems -/

/-- C1: the claim says a raising `apply_trade` leaves cash, holdings and the
trade log unchanged (all-or-nothing).  The code contradicts this: on an
oversell SELL, `self.cash += amount` has already run when the oversell check
raises.  At the failing input (empty portfolio, SELL 1 unit at price 100)
the call raises the oversell error yet cash has changed from 0 to 100
(holdings and trade log are unchanged).  The trade itself passes every
`Trade.__post_init__` check. -/
theorem C1_oversell_raise_mutates_cash :
    (Portfolio.apply_trade ⟨0, [], [], []⟩
        ⟨1, Side.SELL, 1, 100, 0, 0, "AAPL"⟩).2 =
      some "Cannot sell more than existing position." ∧
    (Portfolio.apply_trade ⟨0, [], [], []⟩
        ⟨1, Side.SELL, 1, 100, 0, 0, "AAPL"⟩).1.cash = 100 ∧
    (Portfolio.apply_trade ⟨0, [], [], []⟩
        ⟨1, Side.SELL, 1, 100, 0, 0, "AAPL"⟩).1.positions = [] ∧
    (Portfolio.apply_trade ⟨0, [], [], []⟩
        ⟨1, Side.SELL, 1, 100, 0, 0, "AAPL"⟩).1.trades = [] ∧
    Trade.valid ⟨1, Side.SELL, 1, 100, 0, 0, "AAPL"⟩ := by
  have h := apply_trade_sell_no_position ⟨0, [], [], []⟩ 1 1 100 0 0 "AAPL" rfl
  refine ⟨by rw [h], by rw [h]; norm_num, by rw [h], by rw [h], ?_⟩
  refine ⟨by norm_num, by norm_num, le_refl _, le_refl _, by decide⟩

/-- C2: starting from no holding in the symbol and enough cash for both
trades, two successful BUYs of q1 at p1 and q2 at p2 leave a holding with
quantity q1+q2 and exact weighted-average price (q1·p1+q2·p2)/(q1+q2). -/
theorem C2_two_buys_weighted_average (p : Portfolio) (sym : String)
    (ts1 ts2 : ℕ) (q1 p1 q2 p2 f1 s1 f2 s2 : ℚ)
    (hsym : strBlank sym = false)
    (hq1 : 0 < q1) (hp1 : 0 < p1) (hq2 : 0 < q2) (hp2 : 0 < p2)
    (hnone : dictGet p.positions sym = none)
    (hcash1 : q1 * p1 + f1 + s1 ≤ p.cash)
    (hcash2 : q2 * p2 + f2 + s2 ≤ p.cash - (q1 * p1 + f1 + s1)) :
    dictGet ((p.apply_trade
          ⟨ts1, Side.BUY, q1, p1, f1, s1, sym⟩).1.apply_trade
        ⟨ts2, Side.BUY, q2, p2, f2, s2, sym⟩).1.positions sym =
      some ⟨sym, q1 + q2, (q1 * p1 + q2 * p2) / (q1 + q2)⟩ := by
  rw [apply_trade_buy_new p ts1 q1 p1 f1 s1 sym hq1 hp1 hsym hnone hcash1]
  have hsome : dictGet (dictSet p.positions sym ⟨sym, q1, p1⟩) sym =
      some ⟨sym, q1, p1⟩ := dictGet_dictSet_self _ _ _
  rw [apply_trade_buy_merge _ ts2 q2 p2 f2 s2 sym ⟨sym, q1, p1⟩ hq2 hp2 hsym
    hsome hq1 hp1 hcash2]
  rw [dictGet_dictSet_self]
  have : p1 * q1 + p2 * q2 = q1 * p1 + q2 * p2 := by ring
  simp [this]

/-- C3: a valid BUY of quantity q into a fresh symbol followed by a valid
SELL of the same quantity leaves the holding set without that symbol, both
calls succeed, and cash equals the pre-trade cash minus the BUY's
notional+fee+slippage plus the SELL's notional−fee−slippage. -/
theorem C3_buy_then_sell_roundtrip (p : Portfolio) (sym : String)
    (ts1 ts2 : ℕ) (q pb ps f1 s1 f2 s2 : ℚ)
    (hsym : strBlank sym = false)
    (hq : 0 < q) (hpb : 0 < pb) (hps : 0 < ps)
    (hf1 : 0 ≤ f1) (hs1 : 0 ≤ s1) (hf2 : 0 ≤ f2) (hs2 : 0 ≤ s2)
    (hnone : dictGet p.positions sym = none)
    (hcash : q * pb + f1 + s1 ≤ p.cash) :
    (p.apply_trade ⟨ts1, Side.BUY, q, pb, f1, s1, sym⟩).2 = none ∧
    ((p.apply_trade ⟨ts1, Side.BUY, q, pb, f1, s1, sym⟩).1.apply_trade
        ⟨ts2, Side.SELL, q, ps, f2, s2, sym⟩).2 = none ∧
    dictGet ((p.apply_trade
          ⟨ts1, Side.BUY, q, pb, f1, s1, sym⟩).1.apply_trade
        ⟨ts2, Side.SELL, q, ps, f2, s2, sym⟩).1.positions sym = none ∧
    ((p.apply_trade ⟨ts1, Side.BUY, q, pb, f1, s1, sym⟩).1.apply_trade
        ⟨ts2, Side.SELL, q, ps, f2, s2, sym⟩).1.cash =
      p.cash - (q * pb + f1 + s1) + (q * ps - f2 - s2) := by
  rw [apply_trade_buy_new p ts1 q pb f1 s1 sym hq hpb hsym hnone hcash]
  have hsome : dictGet (dictSet p.positions sym ⟨sym, q, pb⟩) sym =
      some ⟨sym, q, pb⟩ := dictGet_dictSet_self _ _ _
  rw [apply_trade_sell_close _ ts2 q ps f2 s2 sym ⟨sym, q, pb⟩ hsome rfl]
  exact ⟨rfl, rfl, dictGet_dictDel_self _ _, rfl⟩

/-- C2 witness: 2@100 then 1@130 from cash 10000 gives quantity 3 at
average 110. -/
theorem C2_two_buys_weighted_average_witness :
    dictGet ((Portfolio.apply_trade ⟨10000, [], [], []⟩
          ⟨1, Side.BUY, 2, 100, 0, 0, "AAPL"⟩).1.apply_trade
        ⟨2, Side.BUY, 1, 130, 0, 0, "AAPL"⟩).1.positions "AAPL" =
      some ⟨"AAPL", 3, 110⟩ := by
  have h := C2_two_buys_weighted_average ⟨10000, [], [], []⟩ "AAPL" 1 2 2 100
    1 130 0 0 0 0 (by decide) (by norm_num) (by norm_num) (by norm_num)
    (by norm_num) rfl (by norm_num) (by norm_num)
  rw [h]
  norm_num [Position.mk.injEq]

/-- C3 witness: BUY 2@100 (fee 1, slippage 1) then SELL 2@120 (fee 1,
slippage 1) from cash 1000: both succeed, the symbol is gone, and cash is
1000 − 202 + 238 = 1036. -/
theorem C3_buy_then_sell_roundtrip_witness :
    ((Portfolio.apply_trade ⟨1000, [], [], []⟩
          ⟨1, Side.BUY, 2, 100, 1, 1, "AAPL"⟩).1.apply_trade
        ⟨2, Side.SELL, 2, 120, 1, 1, "AAPL"⟩).2 = none ∧
    dictGet ((Portfolio.apply_trade ⟨1000, [], [], []⟩
          ⟨1, Side.BUY, 2, 100, 1, 1, "AAPL"⟩).1.apply_trade
        ⟨2, Side.SELL, 2, 120, 1, 1, "AAPL"⟩).1.positions "AAPL" = none ∧
    ((Portfolio.apply_trade ⟨1000, [], [], []⟩
          ⟨1, Side.BUY, 2, 100, 1, 1, "AAPL"⟩).1.apply_trade
        ⟨2, Side.SELL, 2, 120, 1, 1, "AAPL"⟩).1.cash = 1036 := by
  have h := C3_buy_then_sell_roundtrip ⟨1000, [], [], []⟩ "AAPL" 1 2 2 100
    120 1 1 1 1 (by decide) (by norm_num) (by norm_num) (by norm_num)
    (by norm_num) (by norm_num) (by norm_num) (by norm_num) rfl (by norm_num)
  exact ⟨h.2.1, h.2.2.1, by rw [h.2.2.2]; norm_num⟩

/-- Claim C9's invariant over a portfolio's holding set: every held
position has positive quantity and positive average price. -/
def Portfolio.holdingsInvariant (p : Portfolio) : Prop :=
  ∀ pr ∈ p.positions, 0 < (Prod.snd pr).quantity ∧
    0 < (Prod.snd pr).average_price

/-- `apply_trade` preserves the holdings invariant on its final state,
whether it succeeds or raises. -/
theorem apply_trade_preserves_holdingsInvariant (p : Portfolio) (t : Trade)
    (hp : p.holdingsInvariant) (ht : t.valid) :
    (p.apply_trade t).1.holdingsInvariant := by
  obtain ⟨ts, side, q, pr, f, s, sym⟩ := t
  obtain ⟨hq, hpr, hf, hs, hsym⟩ := ht
  cases side with
  | BUY =>
    rcases lt_or_le p.cash (q * pr + f + s) with hc | hc
    · rw [apply_trade_buy_insufficient p ts q pr f s sym hc]; exact hp
    · cases hdg : dictGet p.positions sym with
      | none =>
        rw [apply_trade_buy_new p ts q pr f s sym hq hpr hsym hdg hc]
        intro pr' hpr'
        rcases mem_dictSet hpr' with h | h
        · subst h; exact ⟨hq, hpr⟩
        · exact hp _ h
      | some position =>
        have hpos := hp _ (mem_of_dictGet hdg)
        rw [apply_trade_buy_merge p ts q pr f s sym position hq hpr hsym hdg
          hpos.1 hpos.2 hc]
        intro pr' hpr'
        rcases mem_dictSet hpr' with h | h
        · subst h
          refine ⟨show 0 < position.quantity + q by linarith [hpos.1], ?_⟩
          show 0 < (position.average_price * position.quantity + pr * q) /
            (position.quantity + q)
          apply div_pos _ (by linarith [hpos.1])
          have h1 := mul_pos hpos.2 hpos.1
          have h2 := mul_pos hpr hq
          linarith
        · exact hp _ h
  | SELL =>
    cases hdg : dictGet p.positions sym with
    | none =>
      rw [apply_trade_sell_no_position p ts q pr f s sym hdg]; exact hp
    | some position =>
      have hpos := hp _ (mem_of_dictGet hdg)
      rcases lt_trichotomy position.quantity q with hlt | heq | hgt
      · rw [apply_trade_sell_oversell p ts q pr f s sym position hdg hlt]
        exact hp
      · rw [apply_trade_sell_close p ts q pr f s sym position hdg heq]
        intro pr' hpr'
        exact hp _ (mem_dictDel hpr')
      · rw [apply_trade_sell_shrink p ts q pr f s sym position hdg hgt
          hpos.2 hsym]
        intro pr' hpr'
        rcases mem_dictSet hpr' with h | h
        · subst h
          exact ⟨show 0 < position.quantity - q by linarith, hpos.2⟩
        · exact hp _ h

/-- `mark_to_market` never changes the holding set, whether it succeeds or
raises. -/
theorem mark_to_market_positions_eq (p : Portfolio) (ts : ℕ)
    (cp : List (String × ℚ)) :
    (p.mark_to_market ts cp).1.positions = p.positions := by
  unfold Portfolio.mark_to_market
  split <;> rfl

/-- C9: every held position has quantity > 0 and average price > 0; the
invariant is preserved by every (successful or failing) `apply_trade` and
`mark_to_market` call, and a SELL of exactly the held quantity removes the
holding from the set, so no zero-quantity holding is ever reachable. -/
theorem C9_holdings_invariant_preserved :
    (∀ (p : Portfolio) (t : Trade), p.holdingsInvariant → t.valid →
        (p.apply_trade t).1.holdingsInvariant) ∧
    (∀ (p : Portfolio) (ts : ℕ) (cp : List (String × ℚ)),
        p.holdingsInvariant → (p.mark_to_market ts cp).1.holdingsInvariant) ∧
    (∀ (p : Portfolio) (t : Trade) (position : Position),
        t.side = Side.SELL →
        dictGet p.positions t.symbol = some position →
        position.quantity = t.quantity →
        dictGet (p.apply_trade t).1.positions t.symbol = none) := by
  refine ⟨apply_trade_preserves_holdingsInvariant, ?_, ?_⟩
  · intro p ts cp hp pr hpr
    rw [mark_to_market_positions_eq] at hpr
    exact hp _ hpr
  · intro p t position hside hdg hqty
    obtain ⟨ts, side, q, pr, f, s, sym⟩ := t
    subst hside
    rw [apply_trade_sell_close p ts q pr f s sym position hdg hqty]
    exact dictGet_dictDel_self _ _

/-- C9 witness: applying a valid BUY to an empty portfolio yields a state
satisfying the holdings invariant. -/
theorem C9_holdings_invariant_witness :
    (Portfolio.apply_trade ⟨1000, [], [], []⟩
      ⟨1, Side.BUY, 2, 100, 1, 1, "AAPL"⟩).1.holdingsInvariant :=
  C9_holdings_invariant_preserved.1 ⟨1000, [], [], []⟩
    ⟨1, Side.BUY, 2, 100, 1, 1, "AAPL"⟩
    (fun pr h => absurd h (List.not_mem_nil pr))
    ⟨by norm_num, by norm_num, by norm_num, by norm_num, by decide⟩

/-- C6: `total_return` raises exactly when the curve is empty or the
initial equity is zero, otherwise returns (final − initial)/initial; on the
curve [100, 150] it returns 1/2 and on [200, 100] it returns −1/2. -/
theorem C6_total_return_spec :
    (∀ m : Metrics, m.equity_curve = [] →
        m.total_return =
          .error "Equity curve does not yet contain any values.") ∧
    (∀ (m : Metrics) (first : PortfolioSnapshot)
        (rest : List PortfolioSnapshot),
        m.equity_curve = first :: rest → first.equity = 0 →
        m.total_return = .error "Initial equity must be > 0.") ∧
    (∀ (m : Metrics) (first : PortfolioSnapshot)
        (rest : List PortfolioSnapshot),
        m.equity_curve = first :: rest → first.equity ≠ 0 →
        m.total_return = .ok
          (((rest.getLastD first).equity - first.equity) / first.equity)) ∧
    Metrics.total_return ⟨[⟨0, 100, 0⟩, ⟨1, 150, 0⟩]⟩ = .ok (1 / 2) ∧
    Metrics.total_return ⟨[⟨0, 200, 0⟩, ⟨1, 100, 0⟩]⟩ = .ok (-(1 / 2)) := by
  refine ⟨?_, ?_, ?_, ?_, ?_⟩
  · intro m h
    simp [Metrics.total_return, h]
  · intro m first rest h h0
    simp [Metrics.total_return, h, h0]
  · intro m first rest h h0
    simp [Metrics.total_return, h, h0]
  · norm_num [Metrics.total_return, PortfolioSnapshot.equity]
  · norm_num [Metrics.total_return, PortfolioSnapshot.equity]

/-- C6 witness: the structural parts of `C6_total_return_spec` applied at
the concrete two-snapshot curve [100, 150]. -/
theorem C6_total_return_spec_witness :
    Metrics.total_return ⟨[⟨0, 100, 0⟩, ⟨1, 150, 0⟩]⟩ =
      .ok ((((⟨1, 150, 0⟩ : PortfolioSnapshot)).equity -
          ((⟨0, 100, 0⟩ : PortfolioSnapshot)).equity) /
        ((⟨0, 100, 0⟩ : PortfolioSnapshot)).equity) := by
  have h := C6_total_return_spec.2.2.1 ⟨[⟨0, 100, 0⟩, ⟨1, 150, 0⟩]⟩
    ⟨0, 100, 0⟩ [⟨1, 150, 0⟩] rfl
    (by norm_num [PortfolioSnapshot.equity])
  simpa using h

/-- When no prior-period equity is zero, the returns loop succeeds and
produces exactly the consecutive-pair returns. -/
theorem returnsGo_ok (l : List PortfolioSnapshot) (prev : PortfolioSnapshot)
    (h : ∀ s ∈ (prev :: l).dropLast, s.equity ≠ 0) :
    returnsGo prev l = .ok (List.zipWith
      (fun a b => (b.timestamp, b.equity / a.equity - 1)) (prev :: l) l) := by
  induction l generalizing prev with
  | nil => simp [returnsGo]
  | cons cur rest ih =>
    have hprev : prev.equity ≠ 0 := by
      apply h prev
      rw [List.dropLast_cons₂]
      exact List.mem_cons_self _ _
    have htail : ∀ s ∈ (cur :: rest).dropLast, s.equity ≠ 0 := by
      intro s hs
      apply h s
      rw [List.dropLast_cons₂]
      exact List.mem_cons_of_mem _ hs
    rw [returnsGo, if_neg hprev, ih cur htail]
    rfl

/-- The returns loop raises exactly when one of the prior-period equities
(everything except the last processed snapshot) is zero. -/
theorem returnsGo_error_iff (l : List PortfolioSnapshot)
    (prev : PortfolioSnapshot) :
    (∃ e, returnsGo prev l = .error e) ↔
      ∃ s ∈ (prev :: l).dropLast, s.equity = 0 := by
  induction l generalizing prev with
  | nil => simp [returnsGo]
  | cons cur rest ih =>
    by_cases hprev : prev.equity = 0
    · constructor
      · intro _
        refine ⟨prev, ?_, hprev⟩
        rw [List.dropLast_cons₂]
        exact List.mem_cons_self _ _
      · intro _
        exact ⟨"Previous equity must not be = 0.", by rw [returnsGo, if_pos hprev]⟩
    · rw [returnsGo, if_neg hprev]
      have hstep : (∃ e, (match returnsGo cur rest with
          | .error e => (.error e : Except String (List (ℕ × ℚ)))
          | .ok tail =>
            .ok ((cur.timestamp, cur.equity / prev.equity - 1) :: tail)) =
            .error e) ↔ ∃ e, returnsGo cur rest = .error e := by
        cases hr : returnsGo cur rest <;> simp [hr]
      rw [hstep, ih cur]
      constructor
      · intro ⟨s, hs, h0⟩
        refine ⟨s, ?_, h0⟩
        rw [List.dropLast_cons₂]
        exact List.mem_cons_of_mem _ hs
      · intro ⟨s, hs, h0⟩
        rw [List.dropLast_cons₂] at hs
        rcases List.mem_cons.1 hs with rfl | hs'
        · exact absurd h0 hprev
        · exact ⟨s, hs', h0⟩

/-- C7: `returns_series` returns the empty list for curves shorter than two
snapshots; for longer curves it raises exactly when some prior-period
equity is zero; and when no prior-period equity is zero it returns the
consecutive-pair returns (timestamp[i], equity[i]/equity[i−1] − 1) in
order, one per adjacent pair. -/
theorem C7_returns_series_spec :
    (∀ m : Metrics, m.equity_curve.length < 2 → m.returns_series = .ok []) ∧
    (∀ m : Metrics, 2 ≤ m.equity_curve.length →
        ((∃ e, m.returns_series = .error e) ↔
          ∃ s ∈ m.equity_curve.dropLast, s.equity = 0)) ∧
    (∀ m : Metrics, (∀ s ∈ m.equity_curve.dropLast, s.equity ≠ 0) →
        m.returns_series = .ok (List.zipWith
          (fun a b => (b.timestamp, b.equity / a.equity - 1))
          m.equity_curve m.equity_curve.tail)) := by
  refine ⟨?_, ?_, ?_⟩
  · intro m h
    obtain ⟨curve⟩ := m
    rcases curve with _ | ⟨a, _ | ⟨b, tl⟩⟩
    · rfl
    · rfl
    · simp at h; omega
  · intro m h
    obtain ⟨curve⟩ := m
    rcases curve with _ | ⟨a, _ | ⟨b, tl⟩⟩
    · simp at h
    · simp at h
    · exact returnsGo_error_iff (b :: tl) a
  · intro m h
    obtain ⟨curve⟩ := m
    rcases curve with _ | ⟨a, _ | ⟨b, tl⟩⟩
    · rfl
    · rfl
    · exact returnsGo_ok (b :: tl) a h

/-- C7 witness: on the curve [100, 150, 75] the series is
[(t1, 1/2), (t2, −1/2)]. -/
theorem C7_returns_series_spec_witness :
    Metrics.returns_series ⟨[⟨0, 100, 0⟩, ⟨1, 150, 0⟩, ⟨2, 75, 0⟩]⟩ =
      .ok (List.zipWith (fun a b => (b.timestamp, b.equity / a.equity - 1))
        ([⟨0, 100, 0⟩, ⟨1, 150, 0⟩, ⟨2, 75, 0⟩] : List PortfolioSnapshot)
        ([⟨1, 150, 0⟩, ⟨2, 75, 0⟩] : List PortfolioSnapshot)) := by
  have h := C7_returns_series_spec.2.2 ⟨[⟨0, 100, 0⟩, ⟨1, 150, 0⟩, ⟨2, 75, 0⟩]⟩
    (by norm_num [PortfolioSnapshot.equity])
  simpa using h

/-- A list all of whose elements equal `c` sums to `length · c`. -/
theorem list_sum_const (xs : List ℚ) (c : ℚ) (h : ∀ x ∈ xs, x = c) :
    xs.sum = xs.length * c := by
  induction xs with
  | nil => simp
  | cons a tl ih =>
    have ha : a = c := h a (List.mem_cons_self _ _)
    have htl := ih (fun x hx => h x (List.mem_cons_of_mem _ hx))
    simp [ha, htl]
    ring

/-- The population variance of a constant list is exactly zero. -/
theorem pvariance_eq_zero_of_const (xs : List ℚ)
    (h : ∀ x ∈ xs, ∀ y ∈ xs, x = y) : pvariance xs = 0 := by
  cases xs with
  | nil => simp [pvariance]
  | cons a tl =>
    have hall : ∀ x ∈ a :: tl, x = a := fun x hx =>
      h x hx a (List.mem_cons_self _ _)
    have hmean : listMean (a :: tl) = a := by
      unfold listMean
      rw [list_sum_const _ a hall]
      have hn : ((a :: tl).length : ℚ) ≠ 0 := by
        simp [Nat.cast_add]
        positivity
      field_simp
    have hmap : ∀ y ∈ (a :: tl).map (fun x => (x - listMean (a :: tl)) ^ 2),
        y = 0 := by
      intro y hy
      obtain ⟨x, hx, rfl⟩ := List.mem_map.1 hy
      rw [hmean, hall x hx]
      ring
    unfold pvariance
    rw [List.sum_eq_zero hmap, zero_div]

/-- C8: whenever the period returns exist and are pairwise identical
(which covers the no-returns case vacuously), `sharpe_ratio` returns the
literal zero of its guard branches, whatever the common value's sign or
magnitude. -/
theorem C8_sharpe_zero_on_constant_returns (m : Metrics)
    (periods_per_year : ℕ) (rs : List (ℕ × ℚ))
    (hok : m.returns_series = .ok rs)
    (hconst : ∀ x ∈ rs, ∀ y ∈ rs, (Prod.snd x : ℚ) = Prod.snd y) :
    m.sharpe_ratio periods_per_year = .ok SharpeValue.zero := by
  unfold Metrics.sharpe_ratio
  rw [hok]
  by_cases hlen : (rs.map (fun r => r.2)).length = 0
  · simp [hlen]
  · have hvar : pvariance (rs.map (fun r => r.2)) = 0 := by
      apply pvariance_eq_zero_of_const
      intro x hx y hy
      obtain ⟨rx, hrx, rfl⟩ := List.mem_map.1 hx
      obtain ⟨ry, hry, rfl⟩ := List.mem_map.1 hy
      exact hconst rx hrx ry hry
    simp [hlen, hvar]

/-- C8 witness: on the geometric curve [100, 200, 400] both period returns
equal 1, and the Sharpe ratio is the guard-branch zero. -/
theorem C8_sharpe_zero_on_constant_returns_witness :
    Metrics.sharpe_ratio ⟨[⟨0, 100, 0⟩, ⟨1, 200, 0⟩, ⟨2, 400, 0⟩]⟩ 252 =
      .ok SharpeValue.zero := by
  have hok : Metrics.returns_series ⟨[⟨0, 100, 0⟩, ⟨1, 200, 0⟩, ⟨2, 400, 0⟩]⟩ =
      .ok [(1, 1), (2, 1)] := by
    norm_num [Metrics.returns_series, returnsGo, PortfolioSnapshot.equity]
  exact C8_sharpe_zero_on_constant_returns _ 252 [(1, 1), (2, 1)] hok
    (by decide)

/-- Modelled from the claim's words (refinement counterpart, compared with
the code-derived `drawdownGo`): track a running peak and, at each snapshot
at which the running peak is strictly positive, retain the most negative
value of (equity − peak)/peak. -/
def drawdownSpecGo (peak worst : ℚ) : List ℚ → ℚ
  | [] => worst
  | e :: rest =>
    drawdownSpecGo (max peak e)
      (if 0 < max peak e ∧ (e - max peak e) / max peak e < worst then
        (e - max peak e) / max peak e
      else worst) rest

/-- Modelled from the claim's words: `max_drawdown` as the most negative
drawdown over snapshots with strictly positive running peak, 0 on an empty
sequence and 0 when no drawdown is negative. -/
def Metrics.max_drawdown_spec (m : Metrics) : ℚ :=
  match m.equity_curve.map PortfolioSnapshot.equity with
  | [] => 0
  | e0 :: rest => drawdownSpecGo e0 0 (e0 :: rest)

/-- The running-max update of the code agrees with `max`. -/
theorem ite_lt_eq_max (rm e : ℚ) : (if rm < e then e else rm) = max rm e := by
  rcases le_or_lt e rm with h | h
  · rw [if_neg (not_lt.2 h), max_eq_left h]
  · rw [if_pos h, max_eq_right (le_of_lt h)]

/-- The code's drawdown loop (which skips only a zero running peak) equals
the claim's loop (which considers only a strictly positive running peak):
when the peak is negative the candidate drawdown is ≥ 0 and can never beat
a non-positive `worst`. -/
theorem drawdownGo_eq_spec (l : List ℚ) (rm worst : ℚ) (hw : worst ≤ 0) :
    drawdownGo rm worst l = drawdownSpecGo rm worst l := by
  induction l generalizing rm worst with
  | nil => rfl
  | cons e rest ih =>
    simp only [drawdownGo, drawdownSpecGo, ite_lt_eq_max]
    have he : e ≤ max rm e := le_max_right rm e
    rcases lt_trichotomy (max rm e) 0 with hneg | h0 | hpos
    · have hdd : 0 ≤ (e - max rm e) / max rm e :=
        div_nonneg_iff.2 (Or.inr ⟨by linarith, le_of_lt hneg⟩)
      rw [if_neg (ne_of_lt hneg), if_neg (not_lt.2 (le_trans hw hdd)),
        if_neg (show ¬(0 < max rm e ∧
            (e - max rm e) / max rm e < worst) from
          fun hcon => absurd hcon.1 (not_lt.2 (le_of_lt hneg)))]
      exact ih _ _ hw
    · rw [if_pos h0,
        if_neg (show ¬(0 < max rm e ∧
            (e - max rm e) / max rm e < worst) from
          fun hcon => absurd hcon.1 (by rw [h0]; exact lt_irrefl 0))]
      exact ih _ _ hw
    · rw [if_neg (ne_of_gt hpos)]
      by_cases hdd : (e - max rm e) / max rm e < worst
      · rw [if_pos hdd, if_pos (And.intro hpos hdd)]
        exact ih _ _ (by linarith)
      · rw [if_neg hdd,
          if_neg (show ¬(0 < max rm e ∧
              (e - max rm e) / max rm e < worst) from
            fun hcon => hdd hcon.2)]
        exact ih _ _ hw

/-- The code's drawdown loop never exceeds 0 when started at a
non-positive `worst`. -/
theorem drawdownGo_nonpos (l : List ℚ) (rm worst : ℚ) (hw : worst ≤ 0) :
    drawdownGo rm worst l ≤ 0 := by
  induction l generalizing rm worst with
  | nil => exact hw
  | cons e rest ih =>
    simp only [drawdownGo]
    by_cases h0 : (if rm < e then e else rm) = 0
    · rw [if_pos h0]
      exact ih _ _ hw
    · rw [if_neg h0]
      by_cases hdd : (e - if rm < e then e else rm) /
          (if rm < e then e else rm) < worst
      · rw [if_pos hdd]
        exact ih _ _ (by linarith)
      · rw [if_neg hdd]
        exact ih _ _ hw

/-- On a non-decreasing equity list whose head dominates the starting peak,
the code's drawdown loop returns the starting `worst` of 0. -/
theorem drawdownGo_monotone (l : List ℚ) (rm : ℚ)
    (hchain : l.Chain' (· ≤ ·)) (hhead : ∀ x ∈ l.head?, rm ≤ x) :
    drawdownGo rm 0 l = 0 := by
  induction l generalizing rm with
  | nil => rfl
  | cons e rest ih =>
    have hrme : rm ≤ e := hhead e rfl
    have hrm2 : (if rm < e then e else rm) = e := by
      rcases lt_or_le rm e with h | h
      · rw [if_pos h]
      · rw [if_neg (not_lt.2 h), le_antisymm h hrme]
    obtain ⟨hh, hc⟩ := List.chain'_cons'.1 hchain
    simp only [drawdownGo, hrm2]
    by_cases h0 : e = 0
    · rw [if_pos h0]
      exact ih e hc hh
    · rw [if_neg h0, sub_self, zero_div, if_neg (lt_irrefl 0)]
      exact ih e hc hh

/-- C4: `max_drawdown` returns 0 on an empty curve, agrees everywhere with
the claim's description (most negative (equity − peak)/peak over snapshots
with strictly positive running peak, 0 when none is negative), is always
≤ 0, is 0 on a monotonically non-decreasing curve, and equals −1/3 on
[100, 120, 80, 130]. -/
theorem C4_max_drawdown_spec :
    (∀ m : Metrics, m.equity_curve = [] → m.max_drawdown = 0) ∧
    (∀ m : Metrics, m.max_drawdown = m.max_drawdown_spec) ∧
    (∀ m : Metrics, m.max_drawdown ≤ 0) ∧
    (∀ m : Metrics,
        (m.equity_curve.map PortfolioSnapshot.equity).Chain' (· ≤ ·) →
        m.max_drawdown = 0) ∧
    Metrics.max_drawdown ⟨[⟨0, 100, 0⟩, ⟨1, 120, 0⟩, ⟨2, 80, 0⟩,
        ⟨3, 130, 0⟩]⟩ = -(1 / 3) := by
  refine ⟨?_, ?_, ?_, ?_, ?_⟩
  · intro m h
    obtain ⟨curve⟩ := m
    subst h
    rfl
  · intro m
    obtain ⟨curve⟩ := m
    unfold Metrics.max_drawdown Metrics.max_drawdown_spec
    cases hmap : curve.map PortfolioSnapshot.equity with
    | nil => rfl
    | cons e0 rest => exact drawdownGo_eq_spec _ _ _ (le_refl 0)
  · intro m
    obtain ⟨curve⟩ := m
    unfold Metrics.max_drawdown
    cases hmap : curve.map PortfolioSnapshot.equity with
    | nil => exact le_refl 0
    | cons e0 rest => exact drawdownGo_nonpos _ _ _ (le_refl 0)
  · intro m hchain
    obtain ⟨curve⟩ := m
    unfold Metrics.max_drawdown
    cases hmap : curve.map PortfolioSnapshot.equity with
    | nil => rfl
    | cons e0 rest =>
      rw [hmap] at hchain
      exact drawdownGo_monotone _ _ hchain (fun x hx => by
        simp at hx
        rw [hx])
  · norm_num [Metrics.max_drawdown, drawdownGo, PortfolioSnapshot.equity]

/-- C4 witness: the monotone clause of `C4_max_drawdown_spec` applied to
the non-decreasing curve [100, 110, 120]. -/
theorem C4_max_drawdown_spec_witness :
    Metrics.max_drawdown ⟨[⟨0, 100, 0⟩, ⟨1, 110, 0⟩, ⟨2, 120, 0⟩]⟩ = 0 :=
  C4_max_drawdown_spec.2.2.2.1 ⟨[⟨0, 100, 0⟩, ⟨1, 110, 0⟩, ⟨2, 120, 0⟩]⟩
    (by norm_num [PortfolioSnapshot.equity])

/-- When all `Trade.__post_init__` checks pass, `mkTrade` succeeds. -/
theorem mkTrade_ok (ts : ℕ) (side : Side) (q price fee slip : ℚ)
    (sym : String) (hq : 0 < q) (hp : 0 < price) (hf : 0 ≤ fee)
    (hs : 0 ≤ slip) (hsym : strBlank sym = false) :
    mkTrade ts side q price fee slip sym =
      .ok ⟨ts, side, q, price, fee, slip, sym⟩ := by
  unfold mkTrade
  rw [if_neg (not_le.2 hq), if_neg (not_le.2 hp), if_neg (not_lt.2 hf),
    if_neg (not_lt.2 hs), if_neg (by simp [hsym])]

/-- A valid bar's base price is positive under either fill configuration. -/
theorem base_price_pos (m : ExecutionModel) (bar : Bar) (hb : bar.valid) :
    0 < m.base_price bar := by
  unfold ExecutionModel.base_price
  cases m.fill_trade_on
  · exact hb.1
  · exact hb.2.2.2.1

/-- A valid order's symbol is not the empty string. -/
theorem valid_symbol_ne_empty (o : Order) (ho : o.valid) : o.symbol ≠ "" := by
  intro h
  have := ho.2
  rw [h] at this
  exact absurd this (by decide)

/-- C10: with slippage configured at 10,000 bps (100%) or more — which
`ExecutionModel.__post_init__` accepts — every SELL execution computes a
fill price ≤ 0, which `Trade.__post_init__` rejects, so `execute` raises
the price validation error on every valid SELL order and bar. -/
theorem C10_sell_full_slippage_always_raises (m : ExecutionModel)
    (o : Order) (bar : Bar) (hslip : 10000 ≤ m.slippage_bps)
    (ho : o.valid) (hside : o.side = Side.SELL) (hb : bar.valid) :
    m.execute o bar = .error "Trade price must be > 0." := by
  obtain ⟨hoq, hosym⟩ := ho
  unfold ExecutionModel.execute
  rw [if_neg (not_le.2 hoq),
    if_neg (valid_symbol_ne_empty o ⟨hoq, hosym⟩), hside]
  have hbase : 0 < m.base_price bar := base_price_pos m bar hb
  have hrate : 1 ≤ m.slippage_bps / 10000 := by
    rw [le_div_iff₀ (by norm_num)]
    linarith
  have hfill : m.base_price bar * (1 - m.slippage_bps / 10000) ≤ 0 :=
    mul_nonpos_of_nonneg_of_nonpos (le_of_lt hbase) (by linarith)
  unfold mkTrade
  rw [if_neg (not_le.2 hoq), if_pos hfill]

/-- C10 witness: a concrete 100%-slippage SELL raises the price error. -/
theorem C10_sell_full_slippage_always_raises_witness :
    ExecutionModel.execute ⟨0, 10000, FillOn.«open»⟩
        ⟨7, Side.SELL, 2, "AAPL"⟩ ⟨5, 100, 120, 90, 110, 1000⟩ =
      .error "Trade price must be > 0." :=
  C10_sell_full_slippage_always_raises ⟨0, 10000, FillOn.«open»⟩
    ⟨7, Side.SELL, 2, "AAPL"⟩ ⟨5, 100, 120, 90, 110, 1000⟩
    (by norm_num) ⟨by norm_num, by decide⟩ rfl
    ⟨by norm_num, by norm_num, by norm_num, by norm_num, by norm_num,
      by norm_num, by norm_num, by norm_num⟩

/-- C5 counterexample: the claim asserts `execute` returns a transaction
for every fee ≥ 0, slippage_bps ≥ 0 configuration and valid order/bar, but
at slippage_bps = 10,000 with a valid SELL order and valid bar it raises
the trade-price validation error instead. -/
theorem C5_counterexample_sell_at_10000_bps :
    ExecutionModel.valid ⟨0, 10000, FillOn.«open»⟩ ∧
    Order.valid ⟨7, Side.SELL, 2, "AAPL"⟩ ∧
    Bar.valid ⟨5, 100, 120, 90, 110, 1000⟩ ∧
    ExecutionModel.execute ⟨0, 10000, FillOn.«open»⟩
        ⟨7, Side.SELL, 2, "AAPL"⟩ ⟨5, 100, 120, 90, 110, 1000⟩ =
      .error "Trade price must be > 0." := by
  refine ⟨⟨by norm_num, by norm_num⟩, ⟨by norm_num, by decide⟩, ?_, ?_⟩
  · exact ⟨by norm_num, by norm_num, by norm_num, by norm_num, by norm_num,
      by norm_num, by norm_num, by norm_num⟩
  · exact C10_sell_full_slippage_always_raises _ _ _ (by norm_num)
      ⟨by norm_num, by decide⟩ rfl
      ⟨by norm_num, by norm_num, by norm_num, by norm_num, by norm_num,
        by norm_num, by norm_num, by norm_num⟩

/-- C5 (amended): for every validly configured model and valid order and
bar, provided the order is a BUY or slippage_bps < 10,000 (so the adverse
adjustment leaves the fill price positive), `execute` returns a
transaction with fill price base·(1 ± slippage_bps/10000) moved against
the trader, slippage cost |fill − base|·quantity ≥ 0, the configured fee,
the bar's timestamp, and the order's direction, quantity and symbol. -/
theorem C5_execute_transaction_fields (m : ExecutionModel) (o : Order)
    (bar : Bar) (hm : m.valid) (ho : o.valid) (hb : bar.valid)
    (hok : o.side = Side.BUY ∨ m.slippage_bps < 10000) :
    ∃ t : Trade, m.execute o bar = .ok t ∧
      t.price = (match o.side with
        | Side.BUY => m.base_price bar * (1 + m.slippage_bps / 10000)
        | Side.SELL => m.base_price bar * (1 - m.slippage_bps / 10000)) ∧
      (o.side = Side.BUY → m.base_price bar ≤ t.price) ∧
      (o.side = Side.SELL → t.price ≤ m.base_price bar) ∧
      t.slippage = |t.price - m.base_price bar| * o.quantity ∧
      0 ≤ t.slippage ∧
      t.fee = m.fee_per_trade ∧
      t.timestamp = bar.timestamp ∧
      t.side = o.side ∧ t.quantity = o.quantity ∧ t.symbol = o.symbol := by
  obtain ⟨ots, oside, oqty, osym⟩ := o
  obtain ⟨hoq, hosym⟩ := ho
  have hbase : 0 < m.base_price bar := base_price_pos m bar hb
  have hrate0 : 0 ≤ m.slippage_bps / 10000 := div_nonneg hm.1 (by norm_num)
  have hsymne : (⟨ots, oside, oqty, osym⟩ : Order).symbol ≠ "" :=
    valid_symbol_ne_empty _ ⟨hoq, hosym⟩
  cases oside with
  | BUY =>
    have hfillpos : 0 < m.base_price bar * (1 + m.slippage_bps / 10000) :=
      mul_pos hbase (by linarith)
    refine ⟨⟨bar.timestamp, Side.BUY, oqty,
      m.base_price bar * (1 + m.slippage_bps / 10000), m.fee_per_trade,
      |m.base_price bar * (1 + m.slippage_bps / 10000) -
        m.base_price bar| * oqty, osym⟩, ?_, rfl, ?_, ?_, rfl, ?_, rfl,
      rfl, rfl, rfl, rfl⟩
    · unfold ExecutionModel.execute
      rw [if_neg (not_le.2 hoq), if_neg hsymne]
      exact mkTrade_ok _ _ _ _ _ _ _ hoq hfillpos hm.2
        (mul_nonneg (abs_nonneg _) (le_of_lt hoq)) hosym
    · exact fun _ => le_mul_of_one_le_right (le_of_lt hbase) (by linarith)
    · exact fun h => nomatch h
    · exact mul_nonneg (abs_nonneg _) (le_of_lt hoq)
  | SELL =>
    have hlt : m.slippage_bps < 10000 := by
      rcases hok with h | h
      · exact nomatch h
      · exact h
    have hrate1 : m.slippage_bps / 10000 < 1 :=
      (div_lt_one (by norm_num)).2 hlt
    have hfillpos : 0 < m.base_price bar * (1 - m.slippage_bps / 10000) :=
      mul_pos hbase (by linarith)
    refine ⟨⟨bar.timestamp, Side.SELL, oqty,
      m.base_price bar * (1 - m.slippage_bps / 10000), m.fee_per_trade,
      |m.base_price bar * (1 - m.slippage_bps / 10000) -
        m.base_price bar| * oqty, osym⟩, ?_, rfl, ?_, ?_, rfl, ?_, rfl,
      rfl, rfl, rfl, rfl⟩
    · unfold ExecutionModel.execute
      rw [if_neg (not_le.2 hoq), if_neg hsymne]
      exact mkTrade_ok _ _ _ _ _ _ _ hoq hfillpos hm.2
        (mul_nonneg (abs_nonneg _) (le_of_lt hoq)) hosym
    · exact fun h => nomatch h
    · exact fun _ => mul_le_of_le_one_right (le_of_lt hbase) (by linarith)
    · exact mul_nonneg (abs_nonneg _) (le_of_lt hoq)

/-- C5 witness: a concrete BUY at 10 bps slippage on a bar opening at 100:
the fill is 100·(1 + 10/10000), timestamped by the bar. -/
theorem C5_execute_transaction_fields_witness :
    ∃ t : Trade,
      ExecutionModel.execute ⟨1, 10, FillOn.«open»⟩ ⟨7, Side.BUY, 2, "AAPL"⟩
          ⟨5, 100, 120, 90, 110, 1000⟩ = .ok t ∧
      t.price = (match (⟨7, Side.BUY, 2, "AAPL"⟩ : Order).side with
        | Side.BUY =>
          ExecutionModel.base_price ⟨1, 10, FillOn.«open»⟩
              ⟨5, 100, 120, 90, 110, 1000⟩ * (1 + 10 / 10000)
        | Side.SELL =>
          ExecutionModel.base_price ⟨1, 10, FillOn.«open»⟩
              ⟨5, 100, 120, 90, 110, 1000⟩ * (1 - 10 / 10000)) ∧
      ((⟨7, Side.BUY, 2, "AAPL"⟩ : Order).side = Side.BUY →
        ExecutionModel.base_price ⟨1, 10, FillOn.«open»⟩
            ⟨5, 100, 120, 90, 110, 1000⟩ ≤ t.price) ∧
      ((⟨7, Side.BUY, 2, "AAPL"⟩ : Order).side = Side.SELL →
        t.price ≤ ExecutionModel.base_price ⟨1, 10, FillOn.«open»⟩
          ⟨5, 100, 120, 90, 110, 1000⟩) ∧
      t.slippage = |t.price - ExecutionModel.base_price ⟨1, 10, FillOn.«open»⟩
          ⟨5, 100, 120, 90, 110, 1000⟩| * 2 ∧
      0 ≤ t.slippage ∧
      t.fee = 1 ∧
      t.timestamp = 5 ∧
      t.side = Side.BUY ∧ t.quantity = 2 ∧ t.symbol = "AAPL" :=
  C5_execute_transaction_fields ⟨1, 10, FillOn.«open»⟩
    ⟨7, Side.BUY, 2, "AAPL"⟩ ⟨5, 100, 120, 90, 110, 1000⟩
    ⟨by norm_num, by norm_num⟩ ⟨by norm_num, by decide⟩
    ⟨by norm_num, by norm_num, by norm_num, by norm_num, by norm_num,
      by norm_num, by norm_num, by norm_num⟩
    (Or.inl rfl)

end Backtester
